import Mathlib

set_option autoImplicit false

/-!
Shallow embedding of `src/behavior_event/model.py` and
`src/behavior_event/database.py`: peewee-style entity models over the
"behavior" schema, with enum fields stored by symbolic name, auto-rounded
decimal fields, auto-stamped `updated` timestamps, and dirty-field saves.
Timestamps are modelled as natural-number clock ticks and decimals as
rationals.
-/

namespace BehaviorEvent

/-- A python/database cell value.  A decoded enum member is represented by its
canonical symbolic name (python's `Enum` member `.name`). -/
inductive Value where
  | none
  | str (s : String)
  | int (n : Int)
  | dec (q : Rat)
  | dt (t : Nat)
deriving DecidableEq

/-- One `NAME = code` line of an enum field class in `model.py`. -/
structure EnumEntry where
  name : String
  code : Nat
deriving DecidableEq

/-- An enum field class: its member lines in declaration order. -/
abbrev EnumSpec := List EnumEntry

/-- `class ClientTypeField(EnumField)` members. -/
def ClientTypeField : EnumSpec :=
  [⟨"FINANCIAL_INSTITUTION", 10⟩, ⟨"INBOUND_DATA_PARTNER", 20⟩,
   ⟨"OUTBOUND_BEHAVIOR_POINT_ENGINE", 30⟩, ⟨"DATA_WAREHOUSE_STAGING", 40⟩]

/-- `class StatusField(EnumField)` members. -/
def StatusField : EnumSpec :=
  [⟨"PENDING", 10⟩, ⟨"ACTIVE", 20⟩, ⟨"DISABLED", 30⟩]

/-- `class EventFrequencyField(EnumField)` members. -/
def EventFrequencyField : EnumSpec :=
  [⟨"EVERY_MINUTE", 5⟩, ⟨"HOURLY", 10⟩, ⟨"DAILY", 20⟩, ⟨"WEEKLY", 30⟩,
   ⟨"MONTHLY", 40⟩, ⟨"QUARTERLY", 50⟩, ⟨"YEARLY", 60⟩]

/-- `class BehaviorTypeField(EnumField)` members (note the duplicated code 10). -/
def BehaviorTypeField : EnumSpec :=
  [⟨"MINIMUM_ACCOUNT_BALANCE", 10⟩, ⟨"MAINTAIN_ACCOUNT_BALANCE", 10⟩,
   ⟨"ADOPT_E_STATEMENT", 30⟩, ⟨"OPEN_SAFE_DEPOSIT_BOX", 40⟩]

/-- `class AccountTypeField(EnumField)` members (note the triplicated code 70). -/
def AccountTypeField : EnumSpec :=
  [⟨"ALL", 1⟩, ⟨"INTERNAL", 10⟩, ⟨"CHECKING", 20⟩, ⟨"CREDIT_CARD", 30⟩,
   ⟨"SAVING", 40⟩, ⟨"MONEY_MARKET", 50⟩, ⟨"MORTGAGE", 60⟩, ⟨"LOAN", 70⟩,
   ⟨"BUSINESS_LOAN", 70⟩, ⟨"PERSONAL_LOAN", 70⟩]

/-- `class DestinationSystemField(EnumField)` members. -/
def DestinationSystemField : EnumSpec :=
  [⟨"DATA_WAREHOUSE_STAGING", 10⟩, ⟨"BEHAVIOR_POINT_ENGINE", 20⟩]

/-- `class BatchStatusField(EnumField)` members (note: `NEW` and `PENDING` share
code 10, so python's `Enum` makes `PENDING` an alias of `NEW`). -/
def BatchStatusField : EnumSpec :=
  [⟨"NEW", 10⟩, ⟨"PENDING", 10⟩, ⟨"STARTED", 20⟩, ⟨"DELIVERED", 30⟩,
   ⟨"SUCCESS", 40⟩, ⟨"PARTIAL_FAILURE", 50⟩, ⟨"FAILURE", 60⟩]

/-- All enum field classes declared in `model.py`. -/
def allEnumSpecs : List EnumSpec :=
  [ClientTypeField, StatusField, EventFrequencyField, BehaviorTypeField,
   AccountTypeField, DestinationSystemField, BatchStatusField]

/-- Python `Enum` member lookup `cls[name]`.  At class creation, a member whose
code equals an earlier member's code becomes an *alias* of that first member,
so `cls[name]` resolves to the first-declared member sharing the name's code;
the result is represented by that canonical member's symbolic name. -/
def memberByName (spec : EnumSpec) (s : String) : Option String :=
  match spec.find? (fun e => e.name == s) with
  | Option.none => Option.none
  | Option.some e =>
    match spec.find? (fun c => c.code == e.code) with
    | Option.none => Option.none
    | Option.some c => Option.some c.name

/-- The enum-decode failure (`KeyError` raised by `cls[value]`). -/
inductive DecodeError where
  | keyError (s : String)
deriving DecidableEq

/-- `EnumField.db_value`: `value if value is None else coerce_to_unicode(value)`.
On a symbolic name (text) the unicode coercion is the identity; `None` passes
through. -/
def db_value (v : Option String) : Option String := v

/-- `EnumField.python_value`: `value if value is None else cls[coerce_to_unicode(value)]`.
`None` passes through; otherwise the stored text is looked up among the declared
member names, raising a decode error when absent. -/
def python_value (spec : EnumSpec) (v : Option String) :
    Except DecodeError (Option String) :=
  match v with
  | Option.none => Except.ok Option.none
  | Option.some s =>
    match memberByName spec s with
    | Option.some m => Except.ok (Option.some m)
    | Option.none => Except.error (DecodeError.keyError s)

/-- Banker's rounding to the nearest integer (python `decimal`'s default
`ROUND_HALF_EVEN`, used by peewee's `DecimalField` when `auto_round=True`). -/
def roundHalfEven (q : Rat) : Int :=
  if q - (⌊q⌋ : Rat) < 1/2 then ⌊q⌋
  else if 1/2 < q - (⌊q⌋ : Rat) then ⌊q⌋ + 1
  else if ⌊q⌋ % 2 = 0 then ⌊q⌋ else ⌊q⌋ + 1

/-- Quantize a rational to `places` decimal places, ties to even (peewee's
`DecimalField.db_value` with `auto_round=True`). -/
def quantize (places : Nat) (q : Rat) : Rat :=
  (roundHalfEven (q * (10 : Rat) ^ places) : Rat) / (10 : Rat) ^ places

/-- The column types used in `model.py`. -/
inductive FieldType where
  | intF
  | charF
  | textF
  | dateTimeF
  | dateF
  | fkF (target : String)
  | enumF (spec : EnumSpec)
  | decimalF (maxDigits places : Nat)
deriving DecidableEq

/-- A field's declared default: none, `DT.now` (evaluated at creation), or a
literal string. -/
inductive DefaultSpec where
  | noDefault
  | nowDefault
  | strDefault (s : String)
deriving DecidableEq

/-- One column declaration of an entity class. -/
structure FieldDecl where
  name : String
  ftype : FieldType
  nullable : Bool
  dflt : DefaultSpec
deriving DecidableEq

/-- `class Client(BaseModel)` columns. -/
def clientSchema : List FieldDecl :=
  [⟨"id", FieldType.intF, false, DefaultSpec.noDefault⟩,
   ⟨"title", FieldType.charF, false, DefaultSpec.noDefault⟩,
   ⟨"type", FieldType.enumF ClientTypeField, false, DefaultSpec.noDefault⟩,
   ⟨"status", FieldType.enumF StatusField, false, DefaultSpec.strDefault "PENDING"⟩,
   ⟨"inserted", FieldType.dateTimeF, false, DefaultSpec.nowDefault⟩,
   ⟨"updated", FieldType.dateTimeF, false, DefaultSpec.nowDefault⟩]

/-- `class EventType(BaseModel)` columns. -/
def eventTypeSchema : List FieldDecl :=
  [⟨"id", FieldType.intF, false, DefaultSpec.noDefault⟩,
   ⟨"title", FieldType.charF, false, DefaultSpec.noDefault⟩,
   ⟨"description", FieldType.charF, false, DefaultSpec.noDefault⟩,
   ⟨"behavior_type", FieldType.enumF BehaviorTypeField, false, DefaultSpec.noDefault⟩,
   ⟨"frequency", FieldType.enumF EventFrequencyField, false, DefaultSpec.noDefault⟩,
   ⟨"stubbed_extract_script", FieldType.textF, false, DefaultSpec.noDefault⟩,
   ⟨"inserted", FieldType.dateTimeF, false, DefaultSpec.nowDefault⟩,
   ⟨"updated", FieldType.dateTimeF, false, DefaultSpec.nowDefault⟩]

/-- `class ClientConfig(BaseModel)` columns. -/
def clientConfigSchema : List FieldDecl :=
  [⟨"id", FieldType.intF, false, DefaultSpec.noDefault⟩,
   ⟨"client_id", FieldType.fkF "clients", false, DefaultSpec.noDefault⟩,
   ⟨"event_type_id", FieldType.fkF "event_types", false, DefaultSpec.noDefault⟩,
   ⟨"effective_date", FieldType.dateF, false, DefaultSpec.noDefault⟩,
   ⟨"expiration_date", FieldType.dateF, true, DefaultSpec.noDefault⟩,
   ⟨"status", FieldType.enumF StatusField, false, DefaultSpec.strDefault "PENDING"⟩,
   ⟨"account_type", FieldType.enumF AccountTypeField, false, DefaultSpec.noDefault⟩,
   ⟨"product_code", FieldType.charF, true, DefaultSpec.noDefault⟩,
   ⟨"balance_floor", FieldType.decimalF 15 4, true, DefaultSpec.noDefault⟩,
   ⟨"inserted", FieldType.dateTimeF, false, DefaultSpec.nowDefault⟩,
   ⟨"updated", FieldType.dateTimeF, false, DefaultSpec.nowDefault⟩]

/-- `class Destination(BaseModel)` columns. -/
def destinationSchema : List FieldDecl :=
  [⟨"id", FieldType.intF, false, DefaultSpec.noDefault⟩,
   ⟨"destination_system", FieldType.enumF DestinationSystemField, false, DefaultSpec.noDefault⟩,
   ⟨"inserted", FieldType.dateTimeF, false, DefaultSpec.nowDefault⟩,
   ⟨"updated", FieldType.dateTimeF, false, DefaultSpec.nowDefault⟩]

/-- `class DestinationConfig(BaseModel)` columns. -/
def destinationConfigSchema : List FieldDecl :=
  [⟨"id", FieldType.intF, false, DefaultSpec.noDefault⟩,
   ⟨"destination_id", FieldType.fkF "destinations", false, DefaultSpec.noDefault⟩,
   ⟨"key", FieldType.charF, true, DefaultSpec.noDefault⟩,
   ⟨"value", FieldType.charF, true, DefaultSpec.noDefault⟩,
   ⟨"inserted", FieldType.dateTimeF, false, DefaultSpec.nowDefault⟩,
   ⟨"updated", FieldType.dateTimeF, false, DefaultSpec.nowDefault⟩]

/-- `class EventBatch(BaseModel)` columns. -/
def eventBatchSchema : List FieldDecl :=
  [⟨"id", FieldType.intF, false, DefaultSpec.noDefault⟩,
   ⟨"client_config_id", FieldType.fkF "client_configs", false, DefaultSpec.noDefault⟩,
   ⟨"status", FieldType.enumF BatchStatusField, false, DefaultSpec.noDefault⟩,
   ⟨"delivery_system_event_batch_id", FieldType.intF, true, DefaultSpec.noDefault⟩,
   ⟨"inserted", FieldType.dateTimeF, false, DefaultSpec.nowDefault⟩,
   ⟨"updated", FieldType.dateTimeF, false, DefaultSpec.nowDefault⟩]

/-- `class EventBatchDelivery(BaseModel)` columns. -/
def eventBatchDeliverySchema : List FieldDecl :=
  [⟨"id", FieldType.intF, false, DefaultSpec.noDefault⟩,
   ⟨"event_batch_id", FieldType.fkF "batches", false, DefaultSpec.noDefault⟩,
   ⟨"status", FieldType.enumF BatchStatusField, false, DefaultSpec.noDefault⟩,
   ⟨"status_message", FieldType.textF, false, DefaultSpec.noDefault⟩,
   ⟨"inserted", FieldType.dateTimeF, false, DefaultSpec.nowDefault⟩,
   ⟨"updated", FieldType.dateTimeF, false, DefaultSpec.nowDefault⟩]

/-- `class Event(BaseModel)` columns. -/
def eventSchema : List FieldDecl :=
  [⟨"id", FieldType.intF, false, DefaultSpec.noDefault⟩,
   ⟨"event_batch_id", FieldType.fkF "batches", false, DefaultSpec.noDefault⟩,
   ⟨"quantity", FieldType.decimalF 12 4, false, DefaultSpec.noDefault⟩,
   ⟨"event_timestamp", FieldType.dateTimeF, false, DefaultSpec.noDefault⟩,
   ⟨"inserted", FieldType.dateTimeF, false, DefaultSpec.nowDefault⟩,
   ⟨"updated", FieldType.dateTimeF, false, DefaultSpec.nowDefault⟩]

/-- `class EventBatchDeliveryErrorEvent(BaseModel)` columns. -/
def errorEventSchema : List FieldDecl :=
  [⟨"id", FieldType.intF, false, DefaultSpec.noDefault⟩,
   ⟨"event_batch_delivery_id", FieldType.fkF "event_batch_deliveries", false, DefaultSpec.noDefault⟩,
   ⟨"event_id", FieldType.fkF "events", false, DefaultSpec.noDefault⟩,
   ⟨"inserted", FieldType.dateTimeF, false, DefaultSpec.nowDefault⟩,
   ⟨"updated", FieldType.dateTimeF, false, DefaultSpec.nowDefault⟩]

/-- All entity classes declared in `model.py`. -/
def allEntitySchemas : List (List FieldDecl) :=
  [clientSchema, eventTypeSchema, clientConfigSchema, destinationSchema,
   destinationConfigSchema, eventBatchSchema, eventBatchDeliverySchema,
   eventSchema, errorEventSchema]

/-- Per-field `db_value` conversion applied on write: enum names are stored as
text, decimals are quantized (`auto_round`), everything else passes through. -/
def encodeValue : FieldType → Value → Value
  | FieldType.enumF _, Value.str s => Value.str s
  | FieldType.decimalF _ places, Value.dec q => Value.dec (quantize places q)
  | _, v => v

/-- Per-field `python_value` conversion applied on read: stored enum text is
looked up among the declared names (decode error when absent, `None` passes
through), everything else passes through. -/
def decodeValue : FieldType → Value → Except DecodeError Value
  | FieldType.enumF spec, Value.str s =>
    match memberByName spec s with
    | Option.some m => Except.ok (Value.str m)
    | Option.none => Except.error (DecodeError.keyError s)
  | _, v => Except.ok v

/-- Encode a whole row for storage, field by field. -/
def encodeRow (schema : List FieldDecl) (row : List Value) : List Value :=
  List.zipWith (fun fd v => encodeValue fd.ftype v) schema row

/-- Decode a whole stored row, failing on the first enum-decode error. -/
def decodeRow : List FieldDecl → List Value → Except DecodeError (List Value)
  | [], _ => Except.ok []
  | _ :: _, [] => Except.ok []
  | fd :: fs, v :: vs => do
    let w ← decodeValue fd.ftype v
    let ws ← decodeRow fs vs
    Except.ok (w :: ws)

/-- The declared rounding applied to a row: decimal fields are quantized to
their declared places, all other fields are untouched. -/
def roundValue : FieldType → Value → Value
  | FieldType.decimalF _ places, Value.dec q => Value.dec (quantize places q)
  | _, v => v

/-- Pointwise `roundValue` over a row. -/
def roundRow (schema : List FieldDecl) (row : List Value) : List Value :=
  List.zipWith (fun fd v => roundValue fd.ftype v) schema row

/-- A value is well-formed for a field when an enum field holds either `None`
or a *canonical* declared name: one that member lookup maps to itself (i.e. the
first-declared name with its code). -/
def valueOkFor : FieldType → Value → Bool
  | FieldType.enumF spec, Value.str s =>
    match memberByName spec s with
    | Option.some m => m == s
    | Option.none => false
  | FieldType.enumF _, Value.none => true
  | FieldType.enumF _, _ => false
  | _, _ => true

/-- Row-wise `valueOkFor`. -/
def rowOk (schema : List FieldDecl) (row : List Value) : Bool :=
  (schema.zip row).all (fun p => valueOkFor p.1.ftype p.2)

/-- The table: stored rows keyed by primary key. -/
abbrev Db := List (Nat × List Value)

/-- Insert a freshly created record: its field values are encoded and stored
under its primary key. -/
def createRecord (schema : List FieldDecl) (pk : Nat) (row : List Value) (db : Db) : Db :=
  (pk, encodeRow schema row) :: db

/-- Reload a record by primary key: the stored row is decoded field by field. -/
def loadRecord (schema : List FieldDecl) (db : Db) (pk : Nat) :
    Option (Except DecodeError (List Value)) :=
  (db.find? (fun p => p.1 == pk)).map (fun p => decodeRow schema p.2)

/-- Look up an explicitly supplied creation argument by field name. -/
def lookupProvided (provided : List (String × Value)) (n : String) : Option Value :=
  (provided.find? (fun p => p.1 == n)).map (fun p => p.2)

/-- Evaluate a field's declared default at creation time `now`. -/
def defaultValue (now : Nat) : DefaultSpec → Value
  | DefaultSpec.noDefault => Value.none
  | DefaultSpec.nowDefault => Value.dt now
  | DefaultSpec.strDefault s => Value.str s

/-- Instantiate a record at time `now`: each field takes its supplied value if
any, otherwise its declared default. -/
def newRecord (now : Nat) (schema : List FieldDecl) (provided : List (String × Value)) :
    List Value :=
  schema.map (fun fd =>
    match lookupProvided provided fd.name with
    | Option.some v => v
    | Option.none => defaultValue now fd.dflt)

/-- Read a record's field by name (positional row paired with its schema). -/
def getNamed (schema : List FieldDecl) (row : List Value) (n : String) : Option Value :=
  ((schema.zip row).find? (fun p => p.1.name == n)).map (fun p => p.2)

/-- An in-memory model instance: its current field values (positional, aligned
with its schema) and the indices of the fields assigned since the last
load/save (peewee's dirty set). -/
structure MemRec where
  row : List Value
  dirty : List Nat
deriving DecidableEq

/-- The database error raised by a failed persist. -/
inductive DbError where
  | dbFailure
deriving DecidableEq

/-- Index of the `updated` column in an entity schema. -/
def updIdx (schema : List FieldDecl) : Nat :=
  schema.findIdx (fun fd => fd.name == "updated")

/-- With `only_save_dirty = True`, a save writes only the dirty fields of the
in-memory row over the stored row (absolute indices; `i` is the index of the
head of `stored`). -/
def mergeDirty (dirty : List Nat) (mem : List Value) : Nat → List Value → List Value
  | _, [] => []
  | i, s :: ss =>
    (if dirty.contains i then mem.getD i s else s) :: mergeDirty dirty mem (i + 1) ss

/-- `BaseModel.save`: first `self.updated = DT.now()` (the assignment both sets
the field and marks it dirty), then `super().save()`, which persists the dirty
fields and clears the dirty set on success; a database failure propagates and
leaves the in-memory record as it was at the moment of the failure. -/
def modelSave (schema : List FieldDecl) (now : Nat) (r : MemRec)
    (stored : List Value) (dbOk : Bool) : MemRec × Except DbError (List Value) :=
  let r1 : MemRec := ⟨r.row.set (updIdx schema) (Value.dt now), updIdx schema :: r.dirty⟩
  if dbOk then
    (⟨r1.row, []⟩, Except.ok (mergeDirty r1.dirty r1.row 0 stored))
  else
    (r1, Except.error DbError.dbFailure)

/-- The configuration a `PostgresqlDatabase` handle is constructed with. -/
structure ConnectionHandle where
  database : String
  user : String
  password : String
  host : String
  port : String
deriving DecidableEq

/-- `database.get_db_connection`: constructs the handle from the given database
name, user, password, host and port; the `autocommit` argument is accepted but
not forwarded to the driver. -/
def get_db_connection (db user passwd host port : String) (autocommit : Bool) :
    ConnectionHandle :=
  { database := db, user := user, password := passwd, host := host, port := port }

/-! ### Helper lemmas -/

theorem getD_set_self {α : Type} (l : List α) (i : Nat) (v d : α) (h : i < l.length) :
    (l.set i v).getD i d = v := by
  induction l generalizing i with
  | nil => simp at h
  | cons a as ih =>
    cases i with
    | zero => rfl
    | succ j =>
      simp only [List.set, List.getD_cons_succ]
      exact ih j (by simpa using h)

theorem mergeDirty_get? (dirty : List Nat) (mem : List Value) :
    ∀ (stored : List Value) (k i : Nat),
      (mergeDirty dirty mem k stored).get? i =
        (stored.get? i).map
          (fun s => if dirty.contains (k + i) then mem.getD (k + i) s else s) := by
  intro stored
  induction stored with
  | nil => intro k i; simp [mergeDirty]
  | cons s ss ih =>
    intro k i
    cases i with
    | zero => simp [mergeDirty]
    | succ j =>
      have hk : k + 1 + j = k + (j + 1) := by omega
      simp only [mergeDirty, List.get?_cons_succ, ih (k + 1) j, hk]

theorem mergeDirty_length (dirty : List Nat) (mem : List Value) :
    ∀ (stored : List Value) (k : Nat),
      (mergeDirty dirty mem k stored).length = stored.length := by
  intro stored
  induction stored with
  | nil => intro k; rfl
  | cons s ss ih => intro k; simp [mergeDirty, ih]

theorem updIdx_lt (schema : List FieldDecl) (h : schema ∈ allEntitySchemas) :
    updIdx schema < schema.length := by
  simp only [allEntitySchemas, List.mem_cons, List.not_mem_nil, or_false] at h
  rcases h with rfl | rfl | rfl | rfl | rfl | rfl | rfl | rfl | rfl <;> decide

theorem decodeValue_encodeValue (ft : FieldType) (v : Value)
    (h : valueOkFor ft v = true) :
    decodeValue ft (encodeValue ft v) = Except.ok (roundValue ft v) := by
  cases ft with
  | enumF spec =>
    cases v with
    | str s =>
      cases hm : memberByName spec s with
      | none => simp [valueOkFor, hm] at h
      | some m =>
        have hms : m = s := by
          simp only [valueOkFor, hm, beq_iff_eq] at h
          exact h
        subst hms
        simp [encodeValue, decodeValue, hm, roundValue]
    | none => rfl
    | int n => simp [valueOkFor] at h
    | dec q => simp [valueOkFor] at h
    | dt t => simp [valueOkFor] at h
  | intF => rfl
  | charF => rfl
  | textF => rfl
  | dateTimeF => rfl
  | dateF => rfl
  | fkF target => rfl
  | decimalF md places => cases v <;> rfl

theorem decodeRow_encodeRow :
    ∀ (schema : List FieldDecl) (row : List Value),
      row.length = schema.length → rowOk schema row = true →
      decodeRow schema (encodeRow schema row) = Except.ok (roundRow schema row) := by
  intro schema
  induction schema with
  | nil =>
    intro row hlen _
    cases row with
    | nil => rfl
    | cons v vs => simp at hlen
  | cons fd fs ih =>
    intro row hlen hok
    cases row with
    | nil => simp at hlen
    | cons v vs =>
      have hok1 : valueOkFor fd.ftype v = true := by
        simp only [rowOk, List.zip_cons_cons, List.all_cons, Bool.and_eq_true] at hok
        exact hok.1
      have hok2 : rowOk fs vs = true := by
        simp only [rowOk, List.zip_cons_cons, List.all_cons, Bool.and_eq_true] at hok
        exact hok.2
      have hlen2 : vs.length = fs.length := by simpa using hlen
      have e1 := decodeValue_encodeValue fd.ftype v hok1
      have e2 := ih vs hlen2 hok2
      calc decodeRow (fd :: fs) (encodeRow (fd :: fs) (v :: vs))
          = (do
              let w ← decodeValue fd.ftype (encodeValue fd.ftype v)
              let ws ← decodeRow fs (encodeRow fs vs)
              Except.ok (w :: ws)) := rfl
        _ = (do
              let w ← Except.ok (roundValue fd.ftype v)
              let ws ← Except.ok (roundRow fs vs)
              Except.ok (w :: ws)) := by rw [e1, e2]
        _ = Except.ok (roundRow (fd :: fs) (v :: vs)) := rfl

theorem abs_roundHalfEven_sub_le (x : Rat) : |(roundHalfEven x : Rat) - x| ≤ 1/2 := by
  have h1 : (⌊x⌋ : Rat) ≤ x := Int.floor_le x
  have h2 : x < (⌊x⌋ : Rat) + 1 := Int.lt_floor_add_one x
  unfold roundHalfEven
  split_ifs with ha hb hc <;> push_cast <;> rw [abs_le] <;> constructor <;> linarith

theorem roundHalfEven_intCast (n : Int) : roundHalfEven ((n : Rat)) = n := by
  unfold roundHalfEven
  rw [Int.floor_intCast]
  have : (n : Rat) - (n : Rat) = 0 := by ring
  rw [this]
  norm_num

/-! ### Claim theorems -/

/-- C2 counterexample: the claim fails for duplicated codes.  `PENDING` is a
declared name of `BatchStatusField`, `db_value` stores the text `PENDING`, but
`python_value` resolves it through python's `Enum` alias mechanism to the
first-declared member with code 10, whose symbolic name is `NEW`. -/
theorem c2_alias_counterexample :
    python_value BatchStatusField (db_value (Option.some "PENDING")) =
      Except.ok (Option.some "NEW") ∧
    "NEW" ≠ "PENDING" := ⟨rfl, by decide⟩

/-- C2 (amended): for every enum field and every *canonical* declared name —
one that is the first declared entry both for its name and for its numeric
code — encoding via `db_value` and decoding via `python_value` yields that same
symbolic name.  A name sharing its code with an earlier entry instead decodes
to that earlier entry's name. -/
theorem c2_roundtrip_canonical (spec : EnumSpec) (hspec : spec ∈ allEnumSpecs)
    (e : EnumEntry)
    (hname : spec.find? (fun x => x.name == e.name) = Option.some e)
    (hcode : spec.find? (fun x => x.code == e.code) = Option.some e) :
    python_value spec (db_value (Option.some e.name)) =
      Except.ok (Option.some e.name) := by
  simp [python_value, db_value, memberByName, hname, hcode]

/-- C2 witness: the canonical name `NEW` of `BatchStatusField` round-trips. -/
theorem c2_roundtrip_canonical_witness :
    BatchStatusField ∈ allEnumSpecs ∧
    BatchStatusField.find?
        (fun x => x.name == (⟨"NEW", 10⟩ : EnumEntry).name) = Option.some ⟨"NEW", 10⟩ ∧
    BatchStatusField.find?
        (fun x => x.code == (⟨"NEW", 10⟩ : EnumEntry).code) = Option.some ⟨"NEW", 10⟩ ∧
    python_value BatchStatusField (db_value (Option.some (⟨"NEW", 10⟩ : EnumEntry).name)) =
      Except.ok (Option.some (⟨"NEW", 10⟩ : EnumEntry).name) :=
  ⟨by decide, by decide, by decide,
    c2_roundtrip_canonical BatchStatusField (by decide) ⟨"NEW", 10⟩ (by decide) (by decide)⟩

/-- C3: for every enum field, decoding a stored text that matches none of the
declared names fails with the enum-decode error, while a null value passes
through unchanged in both directions. -/
theorem c3_decode_error_null_passthrough (spec : EnumSpec) (hspec : spec ∈ allEnumSpecs)
    (s : String) (habs : spec.find? (fun x => x.name == s) = Option.none) :
    python_value spec (Option.some s) = Except.error (DecodeError.keyError s) ∧
    python_value spec Option.none = Except.ok Option.none ∧
    db_value Option.none = Option.none := by
  refine ⟨?_, rfl, rfl⟩
  simp [python_value, memberByName, habs]

/-- C3 witness: `StatusField` rejects the undeclared text `BOGUS` and passes
null through. -/
theorem c3_decode_error_null_passthrough_witness :
    StatusField ∈ allEnumSpecs ∧
    StatusField.find? (fun x => x.name == "BOGUS") = Option.none ∧
    (python_value StatusField (Option.some "BOGUS") =
        Except.error (DecodeError.keyError "BOGUS") ∧
      python_value StatusField Option.none = Except.ok Option.none ∧
      db_value Option.none = Option.none) :=
  ⟨by decide, by decide,
    c3_decode_error_null_passthrough StatusField (by decide) "BOGUS" (by decide)⟩

/-- C5: `ClientConfig.balance_floor` is declared `decimal(15, 4)` and
`Event.quantity` `decimal(12, 4)`, both auto-rounded; on write each stores the
written rational quantized to 4 decimal places — a multiple of `10⁻⁴` within
half an ulp of the written value, and exactly the written value whenever it
already has at most 4 decimal places. -/
theorem c5_decimal_rounding (q : Rat) :
    (clientConfigSchema.find? (fun fd => fd.name == "balance_floor")).map
        (fun fd => fd.ftype) = Option.some (FieldType.decimalF 15 4) ∧
    (eventSchema.find? (fun fd => fd.name == "quantity")).map
        (fun fd => fd.ftype) = Option.some (FieldType.decimalF 12 4) ∧
    encodeValue (FieldType.decimalF 15 4) (Value.dec q) = Value.dec (quantize 4 q) ∧
    encodeValue (FieldType.decimalF 12 4) (Value.dec q) = Value.dec (quantize 4 q) ∧
    (∃ n : Int, quantize 4 q = (n : Rat) / 10 ^ 4) ∧
    |quantize 4 q - q| ≤ 1 / (2 * 10 ^ 4) ∧
    (∀ m : Int, q = (m : Rat) / 10 ^ 4 → quantize 4 q = q) := by
  refine ⟨by decide, by decide, rfl, rfl, ⟨roundHalfEven (q * (10 : Rat) ^ 4), rfl⟩, ?_, ?_⟩
  · have h10 : (0 : Rat) < (10 : Rat) ^ 4 := by norm_num
    have key := abs_roundHalfEven_sub_le (q * (10 : Rat) ^ 4)
    have hq : quantize 4 q - q =
        ((roundHalfEven (q * (10 : Rat) ^ 4) : Rat) - q * (10 : Rat) ^ 4) / (10 : Rat) ^ 4 := by
      unfold quantize
      field_simp
      ring
    rw [hq, abs_div, abs_of_pos h10]
    rw [div_le_iff₀ h10]
    calc |(roundHalfEven (q * (10 : Rat) ^ 4) : Rat) - q * (10 : Rat) ^ 4|
        ≤ 1 / 2 := key
      _ = 1 / (2 * 10 ^ 4) * 10 ^ 4 := by norm_num
  · intro m hm
    subst hm
    have hme : ((m : Rat) / 10 ^ 4) * (10 : Rat) ^ 4 = (m : Rat) := by
      field_simp
    unfold quantize
    rw [hme, roundHalfEven_intCast]

/-- C7: for every entity type, a record created without explicitly supplied
values defaults `inserted` and `updated` to the creation time, and the
`status` field of `Client` and of `ClientConfig` defaults to the symbolic name
`PENDING`. -/
theorem c7_creation_defaults (schema : List FieldDecl)
    (hs : schema ∈ allEntitySchemas) (now : Nat) :
    getNamed schema (newRecord now schema []) "inserted" = Option.some (Value.dt now) ∧
    getNamed schema (newRecord now schema []) "updated" = Option.some (Value.dt now) ∧
    getNamed clientSchema (newRecord now clientSchema []) "status" =
      Option.some (Value.str "PENDING") ∧
    getNamed clientConfigSchema (newRecord now clientConfigSchema []) "status" =
      Option.some (Value.str "PENDING") := by
  refine ⟨?_, ?_, rfl, rfl⟩ <;>
  · simp only [allEntitySchemas, List.mem_cons, List.not_mem_nil, or_false] at hs
    rcases hs with rfl | rfl | rfl | rfl | rfl | rfl | rfl | rfl | rfl <;> rfl

/-- C7 witness: creating a `Client` at tick 7 with no supplied values. -/
theorem c7_creation_defaults_witness :
    clientSchema ∈ allEntitySchemas ∧
    (getNamed clientSchema (newRecord 7 clientSchema []) "inserted" =
        Option.some (Value.dt 7) ∧
      getNamed clientSchema (newRecord 7 clientSchema []) "updated" =
        Option.some (Value.dt 7) ∧
      getNamed clientSchema (newRecord 7 clientSchema []) "status" =
        Option.some (Value.str "PENDING") ∧
      getNamed clientConfigSchema (newRecord 7 clientConfigSchema []) "status" =
        Option.some (Value.str "PENDING")) :=
  ⟨by decide, c7_creation_defaults clientSchema (by decide) 7⟩

/-- C8: `get_db_connection` configures the returned handle with exactly the
given database name, user, password, host and port, for arbitrary
(unvalidated) inputs; the construction itself is total, so any connection
failure arises in the underlying driver and is not caught, retried or
reinterpreted here. -/
theorem c8_connection_config (db user passwd host port : String) (autocommit : Bool) :
    (get_db_connection db user passwd host port autocommit).database = db ∧
    (get_db_connection db user passwd host port autocommit).user = user ∧
    (get_db_connection db user passwd host port autocommit).password = passwd ∧
    (get_db_connection db user passwd host port autocommit).host = host ∧
    (get_db_connection db user passwd host port autocommit).port = port :=
  ⟨rfl, rfl, rfl, rfl, rfl⟩

/-- C9: the `autocommit` argument is accepted but never forwarded, so two calls
differing only in it return identically configured handles. -/
theorem c9_autocommit_noninterference (db user passwd host port : String)
    (ac1 ac2 : Bool) :
    get_db_connection db user passwd host port ac1 =
      get_db_connection db user passwd host port ac2 := rfl

/-- C4 counterexample: the claim fails for duplicated enum codes.  An
`EventBatch` created with `status` set to the declared name `PENDING` reloads
by primary key with `status` decoded to the member named `NEW` (its alias
target), so the reloaded field values are not equal to those written — and no
decimal rounding is involved. -/
theorem c4_alias_counterexample :
    loadRecord eventBatchSchema
        (createRecord eventBatchSchema 1
          [Value.int 1, Value.int 1, Value.str "PENDING", Value.none,
           Value.dt 0, Value.dt 0] []) 1 =
      Option.some (Except.ok
        [Value.int 1, Value.int 1, Value.str "NEW", Value.none,
         Value.dt 0, Value.dt 0]) ∧
    ([Value.int 1, Value.int 1, Value.str "NEW", Value.none, Value.dt 0, Value.dt 0]
      ≠ [Value.int 1, Value.int 1, Value.str "PENDING", Value.none, Value.dt 0, Value.dt 0]) :=
  ⟨rfl, by decide⟩

/-- C4 (amended): for every entity type, creating a record whose enum fields
hold canonical declared names (or null) and reloading it by primary key
returns exactly the written field values up to the declared fixed-point
rounding of decimal fields; enum values written under an alias name (one
sharing its code with an earlier declared name) are instead recovered under
the alias target's name. -/
theorem c4_roundtrip (schema : List FieldDecl) (hs : schema ∈ allEntitySchemas)
    (pk : Nat) (row : List Value) (db : Db)
    (hlen : row.length = schema.length) (hok : rowOk schema row = true) :
    loadRecord schema (createRecord schema pk row db) pk =
      Option.some (Except.ok (roundRow schema row)) := by
  have hfind : ((pk, encodeRow schema row) :: db).find? (fun p => p.1 == pk) =
      Option.some (pk, encodeRow schema row) :=
    List.find?_cons_of_pos _ (by simp)
  simp only [loadRecord, createRecord, hfind, Option.map_some']
  rw [decodeRow_encodeRow schema row hlen hok]

/-- C4 witness: an `EventBatch` written with the canonical status `NEW` reloads
unchanged. -/
theorem c4_roundtrip_witness :
    eventBatchSchema ∈ allEntitySchemas ∧
    rowOk eventBatchSchema
        [Value.int 1, Value.int 1, Value.str "NEW", Value.none,
         Value.dt 0, Value.dt 0] = true ∧
    loadRecord eventBatchSchema
        (createRecord eventBatchSchema 1
          [Value.int 1, Value.int 1, Value.str "NEW", Value.none,
           Value.dt 0, Value.dt 0] []) 1 =
      Option.some (Except.ok (roundRow eventBatchSchema
        [Value.int 1, Value.int 1, Value.str "NEW", Value.none,
         Value.dt 0, Value.dt 0])) :=
  ⟨by decide, by decide,
    c4_roundtrip eventBatchSchema (by decide) 1
      [Value.int 1, Value.int 1, Value.str "NEW", Value.none, Value.dt 0, Value.dt 0]
      [] (by decide) (by decide)⟩

/-- C1: a successful save stamps `updated` with the save-time clock value both
in the persisted row and on the in-memory record, so with a non-decreasing
clock the new `updated` is at least the value held before the write. -/
theorem c1_save_stamps_updated (schema : List FieldDecl)
    (hs : schema ∈ allEntitySchemas) (now t0 : Nat) (r : MemRec)
    (stored : List Value)
    (hlen : r.row.length = schema.length) (hslen : stored.length = schema.length)
    (hold : r.row.getD (updIdx schema) Value.none = Value.dt t0)
    (hclock : t0 ≤ now) :
    ∃ st : List Value,
      (modelSave schema now r stored true).2 = Except.ok st ∧
      st.getD (updIdx schema) Value.none = Value.dt now ∧
      (modelSave schema now r stored true).1.row.getD (updIdx schema) Value.none =
        Value.dt now ∧
      t0 ≤ now := by
  have hu : updIdx schema < schema.length := updIdx_lt schema hs
  have hur : updIdx schema < r.row.length := by rw [hlen]; exact hu
  have hus : updIdx schema < stored.length := by rw [hslen]; exact hu
  refine ⟨mergeDirty (updIdx schema :: r.dirty)
      (r.row.set (updIdx schema) (Value.dt now)) 0 stored, rfl, ?_, ?_, hclock⟩
  · obtain ⟨s0, hs0⟩ : ∃ s0, stored.get? (updIdx schema) = Option.some s0 := by
      cases hcase : stored.get? (updIdx schema) with
      | none => exact absurd (List.get?_eq_none.mp hcase) (by omega)
      | some s0 => exact ⟨s0, rfl⟩
    rw [List.getD_eq_getD_get?, mergeDirty_get?, hs0]
    simp only [Nat.zero_add, Option.map_some', Option.getD_some]
    rw [if_pos (by simp)]
    exact getD_set_self r.row (updIdx schema) (Value.dt now) s0 hur
  · show (r.row.set (updIdx schema) (Value.dt now)).getD (updIdx schema) Value.none =
      Value.dt now
    exact getD_set_self r.row (updIdx schema) (Value.dt now) Value.none hur

/-- C1 witness: saving a loaded `Client` whose `updated` held tick 0 at clock
tick 5. -/
theorem c1_save_stamps_updated_witness :
    ∃ st : List Value,
      (modelSave clientSchema 5
          ⟨[Value.int 1, Value.str "Acme", Value.str "FINANCIAL_INSTITUTION",
            Value.str "PENDING", Value.dt 0, Value.dt 0], []⟩
          [Value.int 1, Value.str "Acme", Value.str "FINANCIAL_INSTITUTION",
            Value.str "PENDING", Value.dt 0, Value.dt 0] true).2 = Except.ok st ∧
      st.getD (updIdx clientSchema) Value.none = Value.dt 5 ∧
      (modelSave clientSchema 5
          ⟨[Value.int 1, Value.str "Acme", Value.str "FINANCIAL_INSTITUTION",
            Value.str "PENDING", Value.dt 0, Value.dt 0], []⟩
          [Value.int 1, Value.str "Acme", Value.str "FINANCIAL_INSTITUTION",
            Value.str "PENDING", Value.dt 0, Value.dt 0] true).1.row.getD
        (updIdx clientSchema) Value.none = Value.dt 5 ∧
      0 ≤ 5 :=
  c1_save_stamps_updated clientSchema (by decide) 5 0
    ⟨[Value.int 1, Value.str "Acme", Value.str "FINANCIAL_INSTITUTION",
      Value.str "PENDING", Value.dt 0, Value.dt 0], []⟩
    [Value.int 1, Value.str "Acme", Value.str "FINANCIAL_INSTITUTION",
      Value.str "PENDING", Value.dt 0, Value.dt 0]
    (by decide) (by decide) (by decide) (by decide)

/-- C6: with `only_save_dirty`, a save writes only the dirty fields (the
stamped `updated` plus the fields assigned since load): any field outside that
set keeps its stored value, and when the clean fields of the in-memory record
agree with the stored row (as after a load), the persisted row equals the
in-memory record, so a full read-back sees a consistent row. -/
theorem c6_dirty_only_persist (schema : List FieldDecl)
    (hs : schema ∈ allEntitySchemas) (now : Nat) (r : MemRec)
    (stored : List Value) (hlen : stored.length = r.row.length)
    (j : Nat) (hj : (updIdx schema :: r.dirty).contains j = false)
    (hclean : ∀ i : Nat, (updIdx schema :: r.dirty).contains i = false →
      (modelSave schema now r stored true).1.row.get? i = stored.get? i) :
    ∃ st : List Value,
      (modelSave schema now r stored true).2 = Except.ok st ∧
      st.get? j = stored.get? j ∧
      st = (modelSave schema now r stored true).1.row := by
  have hmem : (modelSave schema now r stored true).1.row =
      r.row.set (updIdx schema) (Value.dt now) := rfl
  refine ⟨mergeDirty (updIdx schema :: r.dirty)
      (r.row.set (updIdx schema) (Value.dt now)) 0 stored, rfl, ?_, ?_⟩
  · rw [mergeDirty_get?]
    simp only [Nat.zero_add, hj]
    cases hcase : stored.get? j with
    | none => rfl
    | some s => simp
  · rw [hmem]
    rw [List.ext_get?_iff]
    intro n
    rw [mergeDirty_get?]
    simp only [Nat.zero_add]
    cases hcase : stored.get? n with
    | none =>
      have h1 : stored.length ≤ n := List.get?_eq_none.mp hcase
      have h2 : (r.row.set (updIdx schema) (Value.dt now)).get? n = Option.none := by
        rw [List.get?_eq_none]
        rw [List.length_set]
        omega
      rw [h2]
      rfl
    | some s =>
      have hn : n < stored.length := by
        by_contra hcon
        rw [List.get?_eq_none.mpr (by omega)] at hcase
        exact Option.noConfusion hcase
      have hnm : n < (r.row.set (updIdx schema) (Value.dt now)).length := by
        rw [List.length_set]
        omega
      cases hc : (updIdx schema :: r.dirty).contains n with
      | true =>
        obtain ⟨t, ht⟩ : ∃ t,
            (r.row.set (updIdx schema) (Value.dt now)).get? n = Option.some t := by
          cases hcc : (r.row.set (updIdx schema) (Value.dt now)).get? n with
          | none => exact absurd (List.get?_eq_none.mp hcc) (by omega)
          | some t => exact ⟨t, rfl⟩
        have hgd : (r.row.set (updIdx schema) (Value.dt now)).getD n s = t := by
          rw [List.getD_eq_getD_get?, ht]
          rfl
        rw [ht, Option.map_some', if_pos rfl, hgd]
      | false =>
        have hag := hclean n hc
        rw [hmem] at hag
        rw [hag, hcase]
        simp

/-- C6 witness: saving a freshly loaded `Client` (no field assigned since
load) at tick 5: column 0 keeps its stored value and the persisted row equals
the in-memory record. -/
theorem c6_dirty_only_persist_witness :
    ∃ st : List Value,
      (modelSave clientSchema 5
          ⟨[Value.int 1, Value.str "Acme", Value.str "FINANCIAL_INSTITUTION",
            Value.str "PENDING", Value.dt 0, Value.dt 0], []⟩
          [Value.int 1, Value.str "Acme", Value.str "FINANCIAL_INSTITUTION",
            Value.str "PENDING", Value.dt 0, Value.dt 0] true).2 = Except.ok st ∧
      st.get? 0 =
        [Value.int 1, Value.str "Acme", Value.str "FINANCIAL_INSTITUTION",
          Value.str "PENDING", Value.dt 0, Value.dt 0].get? 0 ∧
      st = (modelSave clientSchema 5
          ⟨[Value.int 1, Value.str "Acme", Value.str "FINANCIAL_INSTITUTION",
            Value.str "PENDING", Value.dt 0, Value.dt 0], []⟩
          [Value.int 1, Value.str "Acme", Value.str "FINANCIAL_INSTITUTION",
            Value.str "PENDING", Value.dt 0, Value.dt 0] true).1.row :=
  c6_dirty_only_persist clientSchema (by decide) 5
    ⟨[Value.int 1, Value.str "Acme", Value.str "FINANCIAL_INSTITUTION",
      Value.str "PENDING", Value.dt 0, Value.dt 0], []⟩
    [Value.int 1, Value.str "Acme", Value.str "FINANCIAL_INSTITUTION",
      Value.str "PENDING", Value.dt 0, Value.dt 0]
    (by decide) 0 (by decide)
    (by
      intro i hi
      have hne : updIdx clientSchema ≠ i := by
        intro h
        rw [← h] at hi
        simp at hi
      exact List.get?_set_ne _ _ hne)

/-- C10: when the underlying persist fails, the error propagates, yet the
in-memory record's `updated` field has already been overwritten with the
save-time clock value (and marked dirty) before the failure — save is not
atomic with respect to the in-memory state. -/
theorem c10_error_after_stamp (schema : List FieldDecl)
    (hs : schema ∈ allEntitySchemas) (now : Nat) (r : MemRec)
    (stored : List Value) (hlen : r.row.length = schema.length) :
    (modelSave schema now r stored false).2 = Except.error DbError.dbFailure ∧
    (modelSave schema now r stored false).1.row.getD (updIdx schema) Value.none =
      Value.dt now ∧
    updIdx schema ∈ (modelSave schema now r stored false).1.dirty := by
  have hu : updIdx schema < r.row.length := by rw [hlen]; exact updIdx_lt schema hs
  refine ⟨rfl, ?_, ?_⟩
  · exact getD_set_self r.row (updIdx schema) (Value.dt now) Value.none hu
  · show updIdx schema ∈ updIdx schema :: r.dirty
    exact List.mem_cons_self _ _

/-- C10 witness: a failing save of a `Client` at tick 5 still overwrites the
in-memory `updated` (previously tick 0) with tick 5. -/
theorem c10_error_after_stamp_witness :
    (modelSave clientSchema 5
        ⟨[Value.int 1, Value.str "Acme", Value.str "FINANCIAL_INSTITUTION",
          Value.str "PENDING", Value.dt 0, Value.dt 0], []⟩
        [] false).2 = Except.error DbError.dbFailure ∧
    (modelSave clientSchema 5
        ⟨[Value.int 1, Value.str "Acme", Value.str "FINANCIAL_INSTITUTION",
          Value.str "PENDING", Value.dt 0, Value.dt 0], []⟩
        [] false).1.row.getD (updIdx clientSchema) Value.none = Value.dt 5 ∧
    updIdx clientSchema ∈ (modelSave clientSchema 5
        ⟨[Value.int 1, Value.str "Acme", Value.str "FINANCIAL_INSTITUTION",
          Value.str "PENDING", Value.dt 0, Value.dt 0], []⟩
        [] false).1.dirty :=
  c10_error_after_stamp clientSchema (by decide) 5
    ⟨[Value.int 1, Value.str "Acme", Value.str "FINANCIAL_INSTITUTION",
      Value.str "PENDING", Value.dt 0, Value.dt 0], []⟩
    [] (by decide)

end BehaviorEvent
